import Mathlib

/-!
Verification of the fan-out / fan-in medical-report pipeline (src/app.py).

The pipeline fans one document out to three independently prompted model
calls (`cardiologist_agent`, `psychologist_agent`, `pulmonologist_agent`),
joins all three results into a name-keyed mapping, feeds the complete
mapping to a single synthesis call (`multidisciplinary_team_agent`), and
persists the synthesized text to a fixed file path.

Shallow embedding conventions:
- the external model gateway (`client.models.generate_content`) is an
  oracle `Gateway : String → Except String (Option String)`; the payload
  is the `response.text` field, which may be absent (`none`);
- exceptions are `Except PyError`;
- the nondeterministic completion order of `as_completed` is an explicit
  parameter `π : List String`, a permutation of the fixed role list;
- observable effects (gateway calls, directory creation, file writes) are
  logged as an event trace;
- the filesystem is an explicit state `FsState`; injected faults
  (`mkdirErr`, `writeErr`) model `os.makedirs` / `open`-`write` raising.
-/

deriving instance DecidableEq for Except

/-- Python `str.strip()`: drop whitespace from both ends. -/
def py_strip (s : String) : String :=
  String.mk (((s.data.dropWhile Char.isWhitespace).reverse.dropWhile Char.isWhitespace).reverse)

/-- Errors a run of the pipeline can raise. -/
inductive PyError where
  | gatewayError (msg : String)
  | keyError (key : String)
  | osError (msg : String)
deriving DecidableEq

/-- Observable effects of a run, in program order. -/
inductive Event where
  | gen (prompt : String)
  | mkdir (dir : String)
  | fwrite (path : String) (content : String)
deriving DecidableEq

/-- The external model provider: maps a prompt to an error or to the
optional `response.text` field (absent text is `none`). -/
def Gateway := String → Except String (Option String)

/-- Python truthiness fallback `t or ""` applied to the optional
`response.text` field: `None` and `""` both collapse to `""`. -/
def pyOrEmpty : Option String → String
  | none => ""
  | some t => if t = "" then "" else t

/-- `call_gemini` (app.py lines 27-35): issue one generate call and
return `response.text or ""`; a provider error propagates. -/
def call_gemini (gw : Gateway) (prompt : String) : Except PyError String :=
  match gw prompt with
  | Except.error m => Except.error (PyError.gatewayError m)
  | Except.ok t => Except.ok (pyOrEmpty t)

/-- Prompt built by `cardiologist_agent` (app.py lines 42-61). -/
def cardiologist_agent_prompt (medical_report : String) : String :=
"
You are an experienced cardiologist.

You are reviewing the following medical report. Analyze ONLY from a cardiology perspective.

Report:
\"\"\"" ++ medical_report ++ "\"\"\"

Tasks:
1. Identify any possible cardiovascular issues, risk factors, and red flags.
2. Suggest possible differential diagnoses (cardiology-focused), clearly marked as *not confirmed*.
3. Recommend further tests or evaluations that a real cardiologist might order.
4. Provide a short explanation understandable to a layperson.

IMPORTANT:
- Do NOT provide actual medical diagnosis or treatment.
- Clearly state that this is for educational purposes only and not medical advice.
"

/-- Prompt built by `psychologist_agent` (app.py lines 64-83). -/
def psychologist_agent_prompt (medical_report : String) : String :=
"
You are an experienced clinical psychologist.

You are reviewing the following medical report. Analyze ONLY from a psychological / mental health perspective.

Report:
\"\"\"" ++ medical_report ++ "\"\"\"

Tasks:
1. Identify possible psychological patterns, symptoms, or concerns.
2. Suggest possible differential psychological explanations, clearly marked as *not confirmed*.
3. Suggest what kind of real-world psychological assessments or referrals might be appropriate.
4. Provide a short explanation understandable to a layperson.

IMPORTANT:
- Do NOT provide actual diagnosis or treatment.
- Clearly state that this is for educational purposes only and not medical advice.
"

/-- Prompt built by `pulmonologist_agent` (app.py lines 86-105). -/
def pulmonologist_agent_prompt (medical_report : String) : String :=
"
You are an experienced pulmonologist.

You are reviewing the following medical report. Analyze ONLY from a respiratory / pulmonology perspective.

Report:
\"\"\"" ++ medical_report ++ "\"\"\"

Tasks:
1. Identify possible respiratory issues, patterns, or risk factors.
2. Suggest possible differential diagnoses (pulmonology-focused), clearly marked as *not confirmed*.
3. Recommend further tests or evaluations a pulmonologist might consider.
4. Provide a short explanation understandable to a layperson.

IMPORTANT:
- Do NOT provide actual medical diagnosis or treatment.
- Clearly state that this is for educational purposes only and not medical advice.
"

/-- `cardiologist_agent` (app.py lines 42-61): build the prompt and call
the gateway once. -/
def cardiologist_agent (gw : Gateway) (medical_report : String) : Except PyError String :=
  call_gemini gw (cardiologist_agent_prompt medical_report)

/-- `psychologist_agent` (app.py lines 64-83). -/
def psychologist_agent (gw : Gateway) (medical_report : String) : Except PyError String :=
  call_gemini gw (psychologist_agent_prompt medical_report)

/-- `pulmonologist_agent` (app.py lines 86-105). -/
def pulmonologist_agent (gw : Gateway) (medical_report : String) : Except PyError String :=
  call_gemini gw (pulmonologist_agent_prompt medical_report)

/-- Prompt built by `multidisciplinary_team_agent` (app.py lines 108-140). -/
def multidisciplinary_team_agent_prompt (cardiologist_report : String)
    (psychologist_report : String) (pulmonologist_report : String) : String :=
"
You are a multidisciplinary medical team composed of:
- Cardiologist
- Psychologist
- Pulmonologist

Each specialist has provided a preliminary (non-diagnostic) report.

Cardiologist report:
\"\"\"" ++ cardiologist_report ++ "\"\"\"

Psychologist report:
\"\"\"" ++ psychologist_report ++ "\"\"\"

Pulmonologist report:
\"\"\"" ++ pulmonologist_report ++ "\"\"\"

Your task:
1. Integrate these three perspectives into a single, coherent narrative.
2. Highlight possible connections between cardiovascular, psychological, and respiratory aspects.
3. Suggest a list of questions a patient should ask their real doctor.
4. Suggest what types of real specialists/tests they might want to consult in real life.
5. Summarize in a patient-friendly way.

CRITICAL:
- Do NOT provide a definitive diagnosis or treatment plan.
- Repeatedly remind that this is NOT medical advice and NOT a substitute for a real doctor.
- Label the output clearly as an AI-generated educational summary.
"

/-- `multidisciplinary_team_agent` (app.py lines 108-140): build the
combined prompt from the three specialist reports and call the gateway
once. -/
def multidisciplinary_team_agent (gw : Gateway) (cardiologist_report : String)
    (psychologist_report : String) (pulmonologist_report : String) : Except PyError String :=
  call_gemini gw
    (multidisciplinary_team_agent_prompt cardiologist_report psychologist_report
      pulmonologist_report)

/-- The `agents` dict of `analyze_medical_report` (app.py lines 147-151),
mapping each role name to the prompt its agent builds from the document.
Each agent is the composition of its prompt with one `call_gemini` call. -/
def agents : List (String × (String → String)) :=
  [("Cardiologist", cardiologist_agent_prompt),
   ("Psychologist", psychologist_agent_prompt),
   ("Pulmonologist", pulmonologist_agent_prompt)]

/-- The fixed role set, in the insertion order of the `agents` dict. -/
def roles : List String := ["Cardiologist", "Psychologist", "Pulmonologist"]

/-- Result of the worker thread for role `r`: one gateway call on the
prompt the role builds from the document. -/
def workerResult (gw : Gateway) (doc : String) (r : String) : Except PyError String :=
  match agents.lookup r with
  | some promptFn => call_gemini gw (promptFn doc)
  | none => Except.error (PyError.keyError r)

/-- Gateway-call events of the worker threads, in completion order `π`.
All submitted workers run to completion even when one of them fails, so
these events occur regardless of the join outcome. -/
def workerEvents (doc : String) (π : List String) : List Event :=
  π.filterMap fun r => (agents.lookup r).map fun promptFn => Event.gen (promptFn doc)

/-- The `as_completed` join loop (app.py lines 162-164): collect each
completed worker result into the `responses` dict in completion order;
`future.result()` re-raises the first failure encountered. -/
def joinAll (gw : Gateway) (doc : String) : List String → List (String × String) →
    Except PyError (List (String × String))
  | [], acc => Except.ok acc
  | r :: rest, acc =>
    match workerResult gw doc r with
    | Except.error e => Except.error e
    | Except.ok t => joinAll gw doc rest (acc ++ [(r, t)])

/-- The synthesis step (app.py lines 167-171): subscript the `responses`
dict for each required role (a missing key raises `KeyError`, evaluated
left to right), then make the single synthesis gateway call. Returns the
result together with the gateway events it emits. -/
def synthesisCall (gw : Gateway) (responses : List (String × String)) :
    Except PyError String × List Event :=
  match responses.lookup "Cardiologist" with
  | none => (Except.error (PyError.keyError "Cardiologist"), [])
  | some c =>
    match responses.lookup "Psychologist" with
    | none => (Except.error (PyError.keyError "Psychologist"), [])
    | some p =>
      match responses.lookup "Pulmonologist" with
      | none => (Except.error (PyError.keyError "Pulmonologist"), [])
      | some u =>
        (multidisciplinary_team_agent gw c p u,
         [Event.gen (multidisciplinary_team_agent_prompt c p u)])

/-- Filesystem state: known directories, path-to-content file map, and
injected faults for `os.makedirs` and `open`-`write`. -/
structure FsState where
  dirs : List String
  files : List (String × String)
  mkdirErr : Option String
  writeErr : Option String
deriving DecidableEq

/-- Overwrite the binding of `p` in a path-to-content map, keeping other
bindings; a new path is appended. -/
def setFile : List (String × String) → String → String → List (String × String)
  | [], p, c => [(p, c)]
  | (q, d) :: rest, p, c =>
    if q = p then (p, c) :: rest else (q, d) :: setFile rest p c

/-- `os.makedirs(dir, exist_ok=True)`: an already existing directory is
not an error; an injected fault raises `OSError`. -/
def os_makedirs (fs : FsState) (dir : String) (exist_ok : Bool) : Except PyError FsState :=
  match fs.mkdirErr with
  | some m => Except.error (PyError.osError m)
  | none =>
    if dir ∈ fs.dirs then
      if exist_ok then Except.ok fs
      else Except.error (PyError.osError "FileExistsError")
    else Except.ok ⟨fs.dirs ++ [dir], fs.files, fs.mkdirErr, fs.writeErr⟩

/-- `open(path, "w").write(content)`: fully overwrite the file at `path`;
an injected fault raises `OSError`. -/
def fwriteFile (fs : FsState) (path : String) (content : String) : Except PyError FsState :=
  match fs.writeErr with
  | some m => Except.error (PyError.osError m)
  | none => Except.ok ⟨fs.dirs, setFile fs.files path content, fs.mkdirErr, fs.writeErr⟩

/-- The fixed, request-independent output path (app.py line 176). -/
def txt_output_path : String := "results/final_diagnosis.txt"

/-- The persistence step of `analyze_medical_report` (app.py lines
176-180): ensure the `results` directory exists (`exist_ok=True`), then
write the content to the fixed path. Returns the reached filesystem
state, the raised error if any, and the effect events. -/
def persistReport (fs : FsState) (content : String) :
    FsState × Option PyError × List Event :=
  match os_makedirs fs "results" true with
  | Except.error e => (fs, some e, [])
  | Except.ok fs1 =>
    match fwriteFile fs1 txt_output_path content with
    | Except.error e => (fs1, some e, [Event.mkdir "results"])
    | Except.ok fs2 =>
      (fs2, none, [Event.mkdir "results", Event.fwrite txt_output_path content])

/-- The fixed header prefixed to the synthesized text (app.py line 174). -/
def final_header : String :=
  "### Final AI-Generated Educational Summary (NOT Medical Advice):\n\n"

/-- `analyze_medical_report` (app.py lines 146-182): fan the document out
to the three specialist agents (completion order `π`), join all results
into the `responses` dict, run the synthesis call on the complete dict,
prefix the header, and persist to the fixed path. Returns the Python
return value (or the raised error), the event trace, and the filesystem
state. -/
def analyze_medical_report (gw : Gateway) (fs : FsState) (π : List String)
    (medical_report : String) :
    Except PyError (List (String × String) × String × String) × List Event × FsState :=
  let fanEvents := workerEvents medical_report π
  match joinAll gw medical_report π [] with
  | Except.error e => (Except.error e, fanEvents, fs)
  | Except.ok responses =>
    match synthesisCall gw responses with
    | (Except.error e, sevs) => (Except.error e, fanEvents ++ sevs, fs)
    | (Except.ok final_diagnosis, sevs) =>
      let final_diagnosis_text := final_header ++ final_diagnosis
      match persistReport fs final_diagnosis_text with
      | (fs2, some e, pevs) => (Except.error e, fanEvents ++ sevs ++ pevs, fs2)
      | (fs2, none, pevs) =>
        (Except.ok (responses, final_diagnosis_text, txt_output_path),
         fanEvents ++ sevs ++ pevs, fs2)

/-- What the POST handler renders (or raises). -/
inductive PageResult where
  | errorPage (msg : String) (report : String)
  | resultPage (report : String) (cardiologist_report : String)
      (psychologist_report : String) (pulmonologist_report : String)
      (final_diagnosis : String) (output_path : String)
  | raised (e : PyError)
deriving DecidableEq

/-- The POST branch of the `index` route (app.py lines 601-621): read the
form field with default `""`, strip it, reject an empty result with a
user-visible message before any pipeline work, otherwise run the pipeline
and render the result page (rendering uses `.get(role, "")`). -/
def index_post (gw : Gateway) (fs : FsState) (π : List String)
    (form_report : Option String) : PageResult × List Event × FsState :=
  let report := py_strip (form_report.getD "")
  if report = "" then
    (PageResult.errorPage "Please paste a medical report first." "", [], fs)
  else
    match analyze_medical_report gw fs π report with
    | (Except.error e, evs, fs2) => (PageResult.raised e, evs, fs2)
    | (Except.ok (specialist_reports, final_diagnosis_text, output_path), evs, fs2) =>
      (PageResult.resultPage report
        ((specialist_reports.lookup "Cardiologist").getD "")
        ((specialist_reports.lookup "Psychologist").getD "")
        ((specialist_reports.lookup "Pulmonologist").getD "")
        final_diagnosis_text output_path, evs, fs2)

/-- Fixture: a gateway that answers every prompt with the text "ok". -/
def gw_all_ok : Gateway := fun _ => Except.ok (some "ok")

/-- Fixture: a gateway whose response has no text field. -/
def gw_text_none : Gateway := fun _ => Except.ok none

/-- Fixture: a gateway that raises a provider error on every prompt. -/
def gw_fail : Gateway := fun _ => Except.error "boom"

/-- Fixture: an empty, fault-free filesystem. -/
def fs_empty : FsState := ⟨[], [], none, none⟩

/-- Fixture: a filesystem whose file writes fail. -/
def fs_write_fail : FsState := ⟨[], [], none, some "disk full"⟩

/-- Fixture: a filesystem whose directory creation fails. -/
def fs_mkdir_fail : FsState := ⟨[], [], some "perm denied", none⟩

/-- Recognizer for gateway-call events. -/
def isGenEvent : Event → Bool
  | Event.gen _ => true
  | Event.mkdir _ => false
  | Event.fwrite _ _ => false

theorem py_strip_of_whitespace (s : String) (h : ∀ c ∈ s.data, c.isWhitespace) :
    py_strip s = "" := by
  have h1 : s.data.dropWhile Char.isWhitespace = [] :=
    List.dropWhile_eq_nil_iff.mpr h
  simp [py_strip, h1]

theorem lookup_of_mem_keys (a : String) :
    ∀ l : List (String × String), a ∈ l.map Prod.fst → ∃ b, l.lookup a = some b := by
  intro l
  induction l with
  | nil => intro h; simp at h
  | cons kv rest ih =>
    intro h
    rcases kv with ⟨k, v⟩
    by_cases hk : a = k
    · exact ⟨v, by simp [List.lookup, hk]⟩
    · have hmem : a ∈ rest.map Prod.fst := by
        rcases List.mem_cons.mp h with h1 | h1
        · exact absurd h1 hk
        · exact h1
      rcases ih hmem with ⟨b, hb⟩
      refine ⟨b, ?_⟩
      have hbeq : (a == k) = false := beq_false_of_ne hk
      simp [List.lookup, hbeq, hb]

theorem setFile_lookup_self (p c : String) :
    ∀ l : List (String × String), (setFile l p c).lookup p = some c := by
  intro l
  induction l with
  | nil => simp [setFile, List.lookup]
  | cons kv rest ih =>
    rcases kv with ⟨q, d⟩
    by_cases hq : q = p
    · simp [setFile, hq, List.lookup]
    · have hbeq : (p == q) = false := beq_false_of_ne (fun h => hq h.symm)
      simp [setFile, hq, List.lookup, hbeq, ih]

theorem setFile_setFile (p c : String) :
    ∀ l : List (String × String), setFile (setFile l p c) p c = setFile l p c := by
  intro l
  induction l with
  | nil => simp [setFile]
  | cons kv rest ih =>
    rcases kv with ⟨q, d⟩
    by_cases hq : q = p
    · simp [setFile, hq]
    · simp [setFile, hq, ih]

theorem joinAll_ok_keys (gw : Gateway) (doc : String) :
    ∀ (π : List String) (acc rs : List (String × String)),
      joinAll gw doc π acc = Except.ok rs → rs.map Prod.fst = acc.map Prod.fst ++ π := by
  intro π
  induction π with
  | nil =>
    intro acc rs h
    simp [joinAll] at h
    simp [← h]
  | cons r rest ih =>
    intro acc rs h
    simp only [joinAll] at h
    cases hw : workerResult gw doc r with
    | error e => rw [hw] at h; exact absurd h (by simp)
    | ok t =>
      rw [hw] at h
      have := ih (acc ++ [(r, t)]) rs h
      simpa using this

theorem joinAll_ok_of_forall (gw : Gateway) (doc : String) :
    ∀ (π : List String) (acc : List (String × String)),
      (∀ r ∈ π, ∃ s, workerResult gw doc r = Except.ok s) →
      ∃ rs, joinAll gw doc π acc = Except.ok rs := by
  intro π
  induction π with
  | nil => intro acc _; exact ⟨acc, rfl⟩
  | cons r rest ih =>
    intro acc h
    rcases h r (List.mem_cons_self r rest) with ⟨s, hs⟩
    rcases ih (acc ++ [(r, s)]) (fun x hx => h x (List.mem_cons_of_mem r hx)) with ⟨rs, hrs⟩
    exact ⟨rs, by simp only [joinAll, hs]; exact hrs⟩

theorem joinAll_error_of_exists (gw : Gateway) (doc : String) :
    ∀ (π : List String) (acc : List (String × String)) (r : String), r ∈ π →
      (∀ s, workerResult gw doc r ≠ Except.ok s) →
      ∃ e, joinAll gw doc π acc = Except.error e := by
  intro π
  induction π with
  | nil => intro acc r hr; simp at hr
  | cons q rest ih =>
    intro acc r hr hfail
    cases hw : workerResult gw doc q with
    | error e => exact ⟨e, by simp only [joinAll, hw]⟩
    | ok t =>
      rcases List.mem_cons.mp hr with h1 | h1
      · subst h1; exact absurd hw (hfail t)
      · rcases ih (acc ++ [(q, t)]) r h1 hfail with ⟨e, he⟩
        exact ⟨e, by simp only [joinAll, hw]; exact he⟩

theorem joinAll_ok_forall (gw : Gateway) (doc : String) :
    ∀ (π : List String) (acc rs : List (String × String)),
      joinAll gw doc π acc = Except.ok rs →
      ∀ r ∈ π, ∃ s, workerResult gw doc r = Except.ok s := by
  intro π
  induction π with
  | nil => intro acc rs _ r hr; simp at hr
  | cons q rest ih =>
    intro acc rs h r hr
    simp only [joinAll] at h
    cases hw : workerResult gw doc q with
    | error e => rw [hw] at h; exact absurd h (by simp)
    | ok t =>
      rw [hw] at h
      rcases List.mem_cons.mp hr with h1 | h1
      · exact ⟨t, by rw [h1]; exact hw⟩
      · exact ih (acc ++ [(q, t)]) rs h r h1

theorem agents_lookup_of_mem_roles (r : String) (h : r ∈ roles) :
    ∃ f, agents.lookup r = some f := by
  simp only [roles, List.mem_cons, List.not_mem_nil, or_false] at h
  rcases h with h | h | h
  · exact ⟨cardiologist_agent_prompt, by rw [h]; rfl⟩
  · exact ⟨psychologist_agent_prompt, by rw [h]; rfl⟩
  · exact ⟨pulmonologist_agent_prompt, by rw [h]; rfl⟩

theorem lookup_some_of_workerResult_ok (gw : Gateway) (doc r s : String)
    (h : workerResult gw doc r = Except.ok s) : ∃ f, agents.lookup r = some f := by
  cases hl : agents.lookup r with
  | none => rw [workerResult, hl] at h; exact absurd h (by simp)
  | some f => exact ⟨f, rfl⟩

theorem workerEvents_length_le (doc : String) (π : List String) :
    (workerEvents doc π).length ≤ π.length :=
  List.length_filterMap_le _ π

theorem workerEvents_cons_some (doc r : String) (rest : List String)
    (f : String → String) (hf : agents.lookup r = some f) :
    workerEvents doc (r :: rest) = Event.gen (f doc) :: workerEvents doc rest := by
  simp [workerEvents, List.filterMap_cons, hf]

theorem workerEvents_length_eq (doc : String) :
    ∀ π : List String, (∀ r ∈ π, ∃ f, agents.lookup r = some f) →
      (workerEvents doc π).length = π.length := by
  intro π
  induction π with
  | nil => intro _; rfl
  | cons r rest ih =>
    intro h
    rcases h r (List.mem_cons_self r rest) with ⟨f, hf⟩
    have hrest := ih (fun x hx => h x (List.mem_cons_of_mem r hx))
    rw [workerEvents_cons_some doc r rest f hf, List.length_cons, List.length_cons, hrest]

theorem mem_workerEvents (doc : String) (π : List String) (r : String)
    (f : String → String) (hf : agents.lookup r = some f) (hr : r ∈ π) :
    Event.gen (f doc) ∈ workerEvents doc π := by
  simp only [workerEvents, List.mem_filterMap]
  exact ⟨r, hr, by rw [hf]; rfl⟩

theorem isGen_of_mem_workerEvents (doc : String) (π : List String) (e : Event)
    (h : e ∈ workerEvents doc π) : isGenEvent e = true := by
  simp only [workerEvents, List.mem_filterMap] at h
  rcases h with ⟨r, _, hmap⟩
  cases hl : agents.lookup r with
  | none => rw [hl] at hmap; exact absurd hmap (by simp)
  | some f =>
    rw [hl] at hmap
    simp only [Option.map_some'] at hmap
    rw [← Option.some_inj.mp hmap]
    rfl

theorem synthesisCall_eq (gw : Gateway) (rs : List (String × String)) (c p u : String)
    (hc : rs.lookup "Cardiologist" = some c) (hp : rs.lookup "Psychologist" = some p)
    (hu : rs.lookup "Pulmonologist" = some u) :
    synthesisCall gw rs = (multidisciplinary_team_agent gw c p u,
      [Event.gen (multidisciplinary_team_agent_prompt c p u)]) := by
  simp only [synthesisCall, hc, hp, hu]

theorem synthesisCall_ok_inv (gw : Gateway) (rs : List (String × String)) (fd : String)
    (sevs : List Event) (h : synthesisCall gw rs = (Except.ok fd, sevs)) :
    ∃ c p u, rs.lookup "Cardiologist" = some c ∧ rs.lookup "Psychologist" = some p ∧
      rs.lookup "Pulmonologist" = some u ∧
      multidisciplinary_team_agent gw c p u = Except.ok fd ∧
      sevs = [Event.gen (multidisciplinary_team_agent_prompt c p u)] := by
  unfold synthesisCall at h
  cases hc : rs.lookup "Cardiologist" with
  | none => rw [hc] at h; simp at h
  | some c =>
    rw [hc] at h
    cases hp : rs.lookup "Psychologist" with
    | none => rw [hp] at h; simp at h
    | some p =>
      rw [hp] at h
      cases hu : rs.lookup "Pulmonologist" with
      | none => rw [hu] at h; simp at h
      | some u =>
        rw [hu] at h
        exact ⟨c, p, u, rfl, rfl, rfl, (Prod.mk.injEq _ _ _ _ ▸ h).1,
          ((Prod.mk.injEq _ _ _ _ ▸ h).2).symm⟩

theorem analyze_join_error (gw : Gateway) (fs : FsState) (π : List String) (doc : String)
    (e : PyError) (h : joinAll gw doc π [] = Except.error e) :
    analyze_medical_report gw fs π doc = (Except.error e, workerEvents doc π, fs) := by
  simp only [analyze_medical_report, h]

theorem analyze_synth_error (gw : Gateway) (fs : FsState) (π : List String) (doc : String)
    (rs : List (String × String)) (e : PyError) (sevs : List Event)
    (hjoin : joinAll gw doc π [] = Except.ok rs)
    (hsyn : synthesisCall gw rs = (Except.error e, sevs)) :
    analyze_medical_report gw fs π doc = (Except.error e, workerEvents doc π ++ sevs, fs) := by
  simp only [analyze_medical_report, hjoin, hsyn]

theorem analyze_persist_error (gw : Gateway) (fs : FsState) (π : List String) (doc : String)
    (rs : List (String × String)) (fd : String) (sevs : List Event)
    (fs2 : FsState) (e : PyError) (pevs : List Event)
    (hjoin : joinAll gw doc π [] = Except.ok rs)
    (hsyn : synthesisCall gw rs = (Except.ok fd, sevs))
    (hper : persistReport fs (final_header ++ fd) = (fs2, some e, pevs)) :
    analyze_medical_report gw fs π doc =
      (Except.error e, workerEvents doc π ++ sevs ++ pevs, fs2) := by
  simp only [analyze_medical_report, hjoin, hsyn, hper]

theorem analyze_all_ok (gw : Gateway) (fs : FsState) (π : List String) (doc : String)
    (rs : List (String × String)) (fd : String) (sevs : List Event)
    (fs2 : FsState) (pevs : List Event)
    (hjoin : joinAll gw doc π [] = Except.ok rs)
    (hsyn : synthesisCall gw rs = (Except.ok fd, sevs))
    (hper : persistReport fs (final_header ++ fd) = (fs2, none, pevs)) :
    analyze_medical_report gw fs π doc =
      (Except.ok (rs, final_header ++ fd, txt_output_path),
       workerEvents doc π ++ sevs ++ pevs, fs2) := by
  simp only [analyze_medical_report, hjoin, hsyn, hper]

theorem persistReport_none_inv (fs : FsState) (content : String) (fs2 : FsState)
    (pevs : List Event) (h : persistReport fs content = (fs2, none, pevs)) :
    pevs = [Event.mkdir "results", Event.fwrite txt_output_path content] ∧
    fs2.files = setFile fs.files txt_output_path content ∧
    "results" ∈ fs2.dirs ∧ fs2.mkdirErr = none ∧ fs2.writeErr = none := by
  obtain ⟨dirs, files, mkdirErr, writeErr⟩ := fs
  cases hmk : mkdirErr with
  | some m => subst hmk; simp [persistReport, os_makedirs] at h
  | none =>
    subst hmk
    cases hw : writeErr with
    | some m =>
      subst hw
      by_cases hd : "results" ∈ dirs <;>
        simp [persistReport, os_makedirs, fwriteFile, hd] at h
    | none =>
      subst hw
      by_cases hd : "results" ∈ dirs <;>
        simp [persistReport, os_makedirs, fwriteFile, hd] at h <;>
        rcases h with ⟨h1, h2⟩ <;> rw [← h1, h2] <;> simp [hd]

theorem persistReport_reuse (g : List (String × String)) (dirs : List String)
    (content : String) (hd : "results" ∈ dirs) :
    persistReport ⟨dirs, setFile g txt_output_path content, none, none⟩ content =
      (⟨dirs, setFile g txt_output_path content, none, none⟩, none,
       [Event.mkdir "results", Event.fwrite txt_output_path content]) := by
  simp [persistReport, os_makedirs, fwriteFile, hd, setFile_setFile]

theorem persistReport_mkdir_fail (fs : FsState) (content m : String)
    (hmk : fs.mkdirErr = some m) :
    persistReport fs content = (fs, some (PyError.osError m), []) := by
  simp [persistReport, os_makedirs, hmk]

theorem persistReport_write_fail (fs : FsState) (content m : String)
    (hmk : fs.mkdirErr = none) (hw : fs.writeErr = some m) :
    ∃ fs1, persistReport fs content = (fs1, some (PyError.osError m), [Event.mkdir "results"]) := by
  obtain ⟨dirs, files, mkE, wE⟩ := fs
  have hmk2 : mkE = none := hmk
  have hw2 : wE = some m := hw
  subst hmk2
  subst hw2
  by_cases hd : "results" ∈ dirs
  · exact ⟨⟨dirs, files, none, some m⟩,
      by simp [persistReport, os_makedirs, fwriteFile, hd]⟩
  · exact ⟨⟨dirs ++ ["results"], files, none, some m⟩,
      by simp [persistReport, os_makedirs, fwriteFile, hd]⟩

theorem take_length_append (l m : List Event) (n : Nat) (h : l.length = n) :
    (l ++ m).take n = l := by
  subst h
  exact List.take_left l m

theorem take_of_le_length (l : List Event) (n : Nat) (h : l.length ≤ n) : l.take n = l :=
  List.take_of_length_le h

theorem analyze_trace_take (gw : Gateway) (fs : FsState) (π : List String) (doc : String) :
    (analyze_medical_report gw fs π doc).2.1.take π.length = workerEvents doc π := by
  cases hj : joinAll gw doc π [] with
  | error e =>
    rw [analyze_join_error gw fs π doc e hj]
    exact take_of_le_length _ _ (workerEvents_length_le doc π)
  | ok rs =>
    have hall : ∀ r ∈ π, ∃ f, agents.lookup r = some f := by
      intro r hr
      rcases joinAll_ok_forall gw doc π [] rs hj r hr with ⟨s, hs⟩
      exact lookup_some_of_workerResult_ok gw doc r s hs
    have hlen := workerEvents_length_eq doc π hall
    rcases hsc : synthesisCall gw rs with ⟨res, sevs⟩
    cases res with
    | error e =>
      rw [analyze_synth_error gw fs π doc rs e sevs hj hsc]
      exact take_length_append _ _ _ hlen
    | ok fd =>
      rcases hp : persistReport fs (final_header ++ fd) with ⟨fs2, perr, pevs⟩
      cases perr with
      | some e =>
        rw [analyze_persist_error gw fs π doc rs fd sevs fs2 e pevs hj hsc hp]
        rw [List.append_assoc]
        exact take_length_append _ _ _ hlen
      | none =>
        rw [analyze_all_ok gw fs π doc rs fd sevs fs2 pevs hj hsc hp]
        rw [List.append_assoc]
        exact take_length_append _ _ _ hlen

/-- Claim C10: for every prompt, when the provider responds, `call_gemini`
returns a string: an absent (`none`) or empty text field yields `""`
rather than an absent value or an error, and nonempty text passes through
unchanged, so empty model output propagates as a valid degenerate result. -/
theorem call_gemini_text_fallback (gw : Gateway) (p : String) (t : Option String)
    (h : gw p = Except.ok t) :
    call_gemini gw p = Except.ok (pyOrEmpty t) ∧
    (t = none → call_gemini gw p = Except.ok "") ∧
    (t = some "" → call_gemini gw p = Except.ok "") ∧
    (∀ u, t = some u → u ≠ "" → call_gemini gw p = Except.ok u) := by
  have hg : call_gemini gw p = Except.ok (pyOrEmpty t) := by
    simp only [call_gemini, h]
  refine ⟨hg, ?_, ?_, ?_⟩
  · intro ht; subst ht; exact hg
  · intro ht; subst ht; simpa [pyOrEmpty] using hg
  · intro u ht hu; subst ht; simpa [pyOrEmpty, hu] using hg

/-- Witness for C10 at a gateway whose response text field is absent. -/
theorem call_gemini_text_fallback_witness :
    gw_text_none "p" = Except.ok none ∧
    (call_gemini gw_text_none "p" = Except.ok (pyOrEmpty none) ∧
     (none = (none : Option String) → call_gemini gw_text_none "p" = Except.ok "") ∧
     ((none : Option String) = some "" → call_gemini gw_text_none "p" = Except.ok "") ∧
     (∀ u, (none : Option String) = some u → u ≠ "" →
        call_gemini gw_text_none "p" = Except.ok u)) :=
  ⟨rfl, call_gemini_text_fallback gw_text_none "p" none rfl⟩

/-- Claim C6: a document that is empty or consists only of whitespace is
rejected by the POST handler with the user-visible error message before
any work happens: the event trace is empty (no gateway call, no directory
creation, no file write) and the filesystem is unchanged. -/
theorem whitespace_document_rejected (gw : Gateway) (fs : FsState) (π : List String)
    (form_report : Option String)
    (hws : ∀ c ∈ (form_report.getD "").data, c.isWhitespace = true) :
    index_post gw fs π form_report =
      (PageResult.errorPage "Please paste a medical report first." "", [], fs) := by
  have h := py_strip_of_whitespace _ hws
  simp [index_post, h]

/-- Witness for C6 at a whitespace-only form value. -/
theorem whitespace_document_rejected_witness :
    (∀ c ∈ ((some " \n\t " : Option String).getD "").data, c.isWhitespace = true) ∧
    index_post gw_all_ok fs_empty roles (some " \n\t ") =
      (PageResult.errorPage "Please paste a medical report first." "", [], fs_empty) :=
  ⟨by decide, whitespace_document_rejected gw_all_ok fs_empty roles (some " \n\t ") (by decide)⟩

/-- Claim C7: invoking the synthesis step on a mapping that is missing an
entry for a required role fails fast with an explicit `KeyError` for a
required role, and makes no gateway call (no silent empty-string
substitution). -/
theorem synthesis_incomplete_mapping_fails (gw : Gateway)
    (responses : List (String × String)) (r : String) (hr : r ∈ roles)
    (hmiss : responses.lookup r = none) :
    (∃ k, k ∈ roles ∧ (synthesisCall gw responses).1 = Except.error (PyError.keyError k)) ∧
    (synthesisCall gw responses).2 = [] := by
  simp only [roles, List.mem_cons, List.not_mem_nil, or_false] at hr
  rcases hr with hC | hP | hU
  · subst hC
    refine ⟨⟨"Cardiologist", by simp [roles], ?_⟩, ?_⟩ <;> simp [synthesisCall, hmiss]
  · subst hP
    cases hc : responses.lookup "Cardiologist" with
    | none => refine ⟨⟨"Cardiologist", by simp [roles], ?_⟩, ?_⟩ <;> simp [synthesisCall, hc]
    | some c =>
      refine ⟨⟨"Psychologist", by simp [roles], ?_⟩, ?_⟩ <;> simp [synthesisCall, hc, hmiss]
  · subst hU
    cases hc : responses.lookup "Cardiologist" with
    | none => refine ⟨⟨"Cardiologist", by simp [roles], ?_⟩, ?_⟩ <;> simp [synthesisCall, hc]
    | some c =>
      cases hp : responses.lookup "Psychologist" with
      | none => refine ⟨⟨"Psychologist", by simp [roles], ?_⟩, ?_⟩ <;> simp [synthesisCall, hc, hp]
      | some p =>
        refine ⟨⟨"Pulmonologist", by simp [roles], ?_⟩, ?_⟩ <;>
          simp [synthesisCall, hc, hp, hmiss]

/-- Witness for C7 at the empty mapping. -/
theorem synthesis_incomplete_mapping_fails_witness :
    ("Cardiologist" ∈ roles) ∧ (([] : List (String × String)).lookup "Cardiologist" = none) ∧
    ((∃ k, k ∈ roles ∧ (synthesisCall gw_all_ok []).1 = Except.error (PyError.keyError k)) ∧
     (synthesisCall gw_all_ok []).2 = []) :=
  ⟨by decide, rfl, synthesis_incomplete_mapping_fails gw_all_ok [] "Cardiologist" (by decide) rfl⟩

/-- Claim C3: if the gateway call of some fan-out task fails, the whole
pipeline raises: `analyze_medical_report` returns the propagated error,
the event trace contains only the fan-out worker calls (the synthesis
step is never invoked and no partial mapping is handed to it), and the
filesystem is untouched. -/
theorem fanout_failure_aborts_pipeline (gw : Gateway) (fs : FsState) (π : List String)
    (doc r : String) (hr : r ∈ π)
    (hfail : ∀ s, workerResult gw doc r ≠ Except.ok s) :
    ∃ e, analyze_medical_report gw fs π doc = (Except.error e, workerEvents doc π, fs) := by
  rcases joinAll_error_of_exists gw doc π [] r hr hfail with ⟨e, he⟩
  exact ⟨e, analyze_join_error gw fs π doc e he⟩

/-- Witness for C3 at a gateway that raises on every prompt. -/
theorem fanout_failure_aborts_pipeline_witness :
    ("Cardiologist" ∈ roles) ∧
    (∀ s, workerResult gw_fail "doc" "Cardiologist" ≠ Except.ok s) ∧
    ∃ e, analyze_medical_report gw_fail fs_empty roles "doc" =
      (Except.error e, workerEvents "doc" roles, fs_empty) := by
  have hfail : ∀ s, workerResult gw_fail "doc" "Cardiologist" ≠ Except.ok s := by
    intro s hs
    rw [show workerResult gw_fail "doc" "Cardiologist" =
      Except.error (PyError.gatewayError "boom") from rfl] at hs
    exact Except.noConfusion hs
  exact ⟨by decide, hfail,
    fanout_failure_aborts_pipeline gw_fail fs_empty roles "doc" "Cardiologist" (by decide) hfail⟩

/-- Claim C4: the prompt dispatched for a role is a deterministic function
of the document and the role alone: for the same document and completion
order, two runs with arbitrary different gateways (hence different
results for the other roles) dispatch exactly the same fan-out gateway
calls, and the call for role `r` carries the prompt its own prompt
builder derives from the document. -/
theorem prompts_depend_only_on_document (gw₁ gw₂ : Gateway) (fs₁ fs₂ : FsState)
    (π : List String) (doc : String) :
    (analyze_medical_report gw₁ fs₁ π doc).2.1.take π.length = workerEvents doc π ∧
    (analyze_medical_report gw₂ fs₂ π doc).2.1.take π.length = workerEvents doc π ∧
    (∀ r f, r ∈ π → agents.lookup r = some f →
      Event.gen (f doc) ∈ (analyze_medical_report gw₁ fs₁ π doc).2.1.take π.length) :=
  ⟨analyze_trace_take gw₁ fs₁ π doc, analyze_trace_take gw₂ fs₂ π doc,
   fun r f hr hf =>
     (analyze_trace_take gw₁ fs₁ π doc).symm ▸ mem_workerEvents doc π r f hf hr⟩

/-- Claim C1: for any completion order (a permutation of the fixed role
set) and any document, whenever all three fan-out gateway calls succeed,
the join produces a mapping whose key set is exactly the fixed role set
(no missing and no extra keys), and this mapping is the one
`analyze_medical_report` returns when it returns at all. -/
theorem fanout_mapping_keys_exact (gw : Gateway) (fs : FsState) (doc : String)
    (π : List String) (hπ : π.Perm roles)
    (hok : ∀ r ∈ roles, ∃ s, workerResult gw doc r = Except.ok s) :
    ∃ rs, joinAll gw doc π [] = Except.ok rs ∧
      (rs.map Prod.fst).Perm roles ∧
      (∀ r, r ∈ rs.map Prod.fst ↔ r ∈ roles) ∧
      (∀ out, (analyze_medical_report gw fs π doc).1 = Except.ok out → out.1 = rs) := by
  have hokπ : ∀ r ∈ π, ∃ s, workerResult gw doc r = Except.ok s :=
    fun r hr => hok r (hπ.mem_iff.mp hr)
  rcases joinAll_ok_of_forall gw doc π [] hokπ with ⟨rs, hrs⟩
  have hkeys : rs.map Prod.fst = π := by
    simpa using joinAll_ok_keys gw doc π [] rs hrs
  refine ⟨rs, hrs, ?_, ?_, ?_⟩
  · rw [hkeys]; exact hπ
  · intro r; rw [hkeys]; exact hπ.mem_iff
  · intro out hout
    rcases hsc : synthesisCall gw rs with ⟨res, sevs⟩
    cases res with
    | error e =>
      rw [analyze_synth_error gw fs π doc rs e sevs hrs hsc] at hout
      simp at hout
    | ok fd =>
      rcases hper : persistReport fs (final_header ++ fd) with ⟨fs2, perr, pevs⟩
      cases perr with
      | some e =>
        rw [analyze_persist_error gw fs π doc rs fd sevs fs2 e pevs hrs hsc hper] at hout
        simp at hout
      | none =>
        rw [analyze_all_ok gw fs π doc rs fd sevs fs2 pevs hrs hsc hper] at hout
        simp only [Except.ok.injEq] at hout
        rw [← hout]

/-- Witness for C1 at the dict completion order and a constant gateway. -/
theorem fanout_mapping_keys_exact_witness :
    roles.Perm roles ∧
    (∀ r ∈ roles, ∃ s, workerResult gw_all_ok "doc" r = Except.ok s) ∧
    ∃ rs, joinAll gw_all_ok "doc" roles [] = Except.ok rs ∧
      (rs.map Prod.fst).Perm roles ∧
      (∀ r, r ∈ rs.map Prod.fst ↔ r ∈ roles) ∧
      (∀ out, (analyze_medical_report gw_all_ok fs_empty roles "doc").1 = Except.ok out →
        out.1 = rs) := by
  have hok : ∀ r ∈ roles, ∃ s, workerResult gw_all_ok "doc" r = Except.ok s := by
    intro r hr
    simp only [roles, List.mem_cons, List.not_mem_nil, or_false] at hr
    rcases hr with h | h | h <;> subst h <;> exact ⟨"ok", rfl⟩
  exact ⟨List.Perm.refl roles, hok,
    fanout_mapping_keys_exact gw_all_ok fs_empty "doc" roles (List.Perm.refl roles) hok⟩

/-- Claim C2: in every run whose completion order is a permutation of the
role set, the event trace starts with exactly the fan-out worker calls,
and any later event can exist only after the join completed with a
mapping containing every role; the first post-join event is precisely the
single synthesis gateway call built from the three collected results. -/
theorem synthesis_only_after_complete_join (gw : Gateway) (fs : FsState) (π : List String)
    (doc : String) (hπ : π.Perm roles) :
    ∃ rest, (analyze_medical_report gw fs π doc).2.1 = workerEvents doc π ++ rest ∧
      (rest ≠ [] →
        ∃ rs c p u, joinAll gw doc π [] = Except.ok rs ∧
          (∀ r ∈ roles, r ∈ rs.map Prod.fst) ∧
          rs.lookup "Cardiologist" = some c ∧
          rs.lookup "Psychologist" = some p ∧
          rs.lookup "Pulmonologist" = some u ∧
          rest.head? = some (Event.gen (multidisciplinary_team_agent_prompt c p u))) := by
  cases hj : joinAll gw doc π [] with
  | error e =>
    refine ⟨[], ?_, fun h => absurd rfl h⟩
    rw [analyze_join_error gw fs π doc e hj]
    simp
  | ok rs =>
    have hkeys : rs.map Prod.fst = π := by
      simpa using joinAll_ok_keys gw doc π [] rs hj
    have hmem : ∀ r ∈ roles, r ∈ rs.map Prod.fst := by
      intro r hr; rw [hkeys]; exact hπ.mem_iff.mpr hr
    rcases lookup_of_mem_keys "Cardiologist" rs (hmem _ (by simp [roles])) with ⟨c, hc⟩
    rcases lookup_of_mem_keys "Psychologist" rs (hmem _ (by simp [roles])) with ⟨p, hp⟩
    rcases lookup_of_mem_keys "Pulmonologist" rs (hmem _ (by simp [roles])) with ⟨u, hu⟩
    have hsc := synthesisCall_eq gw rs c p u hc hp hu
    cases hteam : multidisciplinary_team_agent gw c p u with
    | error e =>
      rw [hteam] at hsc
      refine ⟨[Event.gen (multidisciplinary_team_agent_prompt c p u)], ?_,
        fun _ => ⟨rs, c, p, u, rfl, hmem, hc, hp, hu, rfl⟩⟩
      rw [analyze_synth_error gw fs π doc rs e _ hj hsc]
    | ok fd =>
      rw [hteam] at hsc
      rcases hper : persistReport fs (final_header ++ fd) with ⟨fs2, perr, pevs⟩
      cases perr with
      | some e =>
        refine ⟨Event.gen (multidisciplinary_team_agent_prompt c p u) :: pevs, ?_,
          fun _ => ⟨rs, c, p, u, rfl, hmem, hc, hp, hu, rfl⟩⟩
        rw [analyze_persist_error gw fs π doc rs fd _ fs2 e pevs hj hsc hper]
        simp
      | none =>
        refine ⟨Event.gen (multidisciplinary_team_agent_prompt c p u) :: pevs, ?_,
          fun _ => ⟨rs, c, p, u, rfl, hmem, hc, hp, hu, rfl⟩⟩
        rw [analyze_all_ok gw fs π doc rs fd _ fs2 pevs hj hsc hper]
        simp

/-- Witness for C2 at the dict completion order and a constant gateway. -/
theorem synthesis_only_after_complete_join_witness :
    roles.Perm roles ∧
    ∃ rest, (analyze_medical_report gw_all_ok fs_empty roles "doc").2.1 =
        workerEvents "doc" roles ++ rest ∧
      (rest ≠ [] →
        ∃ rs c p u, joinAll gw_all_ok "doc" roles [] = Except.ok rs ∧
          (∀ r ∈ roles, r ∈ rs.map Prod.fst) ∧
          rs.lookup "Cardiologist" = some c ∧
          rs.lookup "Psychologist" = some p ∧
          rs.lookup "Pulmonologist" = some u ∧
          rest.head? = some (Event.gen (multidisciplinary_team_agent_prompt c p u))) :=
  ⟨List.Perm.refl roles,
   synthesis_only_after_complete_join gw_all_ok fs_empty roles "doc" (List.Perm.refl roles)⟩

/-- Counterexample to C5: a concrete run in which the join and the
synthesis gateway call both succeed but the file write fails; contrary to
the claim, `analyze_medical_report` does not return the synthesized
report — it raises the persistence error, so the caller receives nothing. -/
theorem persistence_failure_report_lost :
    joinAll gw_all_ok "doc" roles [] =
      Except.ok [("Cardiologist", "ok"), ("Psychologist", "ok"), ("Pulmonologist", "ok")] ∧
    (synthesisCall gw_all_ok
        [("Cardiologist", "ok"), ("Psychologist", "ok"), ("Pulmonologist", "ok")]).1 =
      Except.ok "ok" ∧
    (analyze_medical_report gw_all_ok fs_write_fail roles "doc").1 =
      Except.error (PyError.osError "disk full") ∧
    ∀ out, (analyze_medical_report gw_all_ok fs_write_fail roles "doc").1 ≠
      Except.ok out := by
  have h3 : (analyze_medical_report gw_all_ok fs_write_fail roles "doc").1 =
      Except.error (PyError.osError "disk full") := by decide
  refine ⟨by decide, by decide, h3, ?_⟩
  intro out h
  rw [h3] at h
  exact Except.noConfusion h

/-- Claim C5 as amended: if persistence fails — the directory creation
raises, or the directory creation succeeds and the file write raises —
after the join and the synthesis call have succeeded,
`analyze_medical_report` raises the persistence error instead of
returning the synthesized report — persistence is coupled to returning
the report, not a mere side effect. -/
theorem persistence_failure_aborts (gw : Gateway) (fs : FsState) (π : List String)
    (doc m : String) (rs : List (String × String)) (fd : String)
    (hjoin : joinAll gw doc π [] = Except.ok rs)
    (hsyn : (synthesisCall gw rs).1 = Except.ok fd)
    (hfail : fs.mkdirErr = some m ∨ (fs.mkdirErr = none ∧ fs.writeErr = some m)) :
    (analyze_medical_report gw fs π doc).1 = Except.error (PyError.osError m) := by
  rcases hsc : synthesisCall gw rs with ⟨res, sevs⟩
  rw [hsc] at hsyn
  simp only at hsyn
  subst hsyn
  rcases hfail with hmk | ⟨hmk, hw⟩
  · have hper := persistReport_mkdir_fail fs (final_header ++ fd) m hmk
    rw [analyze_persist_error gw fs π doc rs fd sevs fs (PyError.osError m) _ hjoin hsc hper]
  · rcases persistReport_write_fail fs (final_header ++ fd) m hmk hw with ⟨fs1, hper⟩
    rw [analyze_persist_error gw fs π doc rs fd sevs fs1 (PyError.osError m) _ hjoin hsc hper]

/-- Witness for the amended C5, exercising both failure modes: a failing
file write and a failing directory creation. -/
theorem persistence_failure_aborts_witness :
    joinAll gw_all_ok "doc" roles [] =
      Except.ok [("Cardiologist", "ok"), ("Psychologist", "ok"), ("Pulmonologist", "ok")] ∧
    (synthesisCall gw_all_ok
        [("Cardiologist", "ok"), ("Psychologist", "ok"), ("Pulmonologist", "ok")]).1 =
      Except.ok "ok" ∧
    (fs_write_fail.mkdirErr = some "disk full" ∨
      (fs_write_fail.mkdirErr = none ∧ fs_write_fail.writeErr = some "disk full")) ∧
    (analyze_medical_report gw_all_ok fs_write_fail roles "doc").1 =
      Except.error (PyError.osError "disk full") ∧
    (fs_mkdir_fail.mkdirErr = some "perm denied" ∨
      (fs_mkdir_fail.mkdirErr = none ∧ fs_mkdir_fail.writeErr = some "perm denied")) ∧
    (analyze_medical_report gw_all_ok fs_mkdir_fail roles "doc").1 =
      Except.error (PyError.osError "perm denied") :=
  ⟨by decide, by decide, Or.inr ⟨rfl, rfl⟩,
   persistence_failure_aborts gw_all_ok fs_write_fail roles "doc" "disk full"
     [("Cardiologist", "ok"), ("Psychologist", "ok"), ("Pulmonologist", "ok")] "ok"
     (by decide) (by decide) (Or.inr ⟨rfl, rfl⟩),
   Or.inl rfl,
   persistence_failure_aborts gw_all_ok fs_mkdir_fail roles "doc" "perm denied"
     [("Cardiologist", "ok"), ("Psychologist", "ok"), ("Pulmonologist", "ok")] "ok"
     (by decide) (by decide) (Or.inl rfl)⟩

/-- Claim C8: on every successful run the artifact is written to the
fixed, request-independent path, its content is the header line followed
by the synthesized text, it fully overwrites whatever the path held
before (the initial filesystem is arbitrary), the destination directory
exists afterwards, and persisting the same content again succeeds without
error, reuses the directory, and leaves the file content unchanged. -/
theorem run_persists_fixed_artifact (gw : Gateway) (fs : FsState) (π : List String)
    (doc : String) (out : List (String × String) × String × String)
    (hok : (analyze_medical_report gw fs π doc).1 = Except.ok out) :
    out.2.2 = "results/final_diagnosis.txt" ∧
    (∃ fd, (synthesisCall gw out.1).1 = Except.ok fd ∧ out.2.1 = final_header ++ fd) ∧
    ((analyze_medical_report gw fs π doc).2.2.files.lookup txt_output_path = some out.2.1) ∧
    "results" ∈ (analyze_medical_report gw fs π doc).2.2.dirs ∧
    persistReport ((analyze_medical_report gw fs π doc).2.2) out.2.1 =
      ((analyze_medical_report gw fs π doc).2.2, none,
       [Event.mkdir "results", Event.fwrite txt_output_path out.2.1]) := by
  cases hj : joinAll gw doc π [] with
  | error e => rw [analyze_join_error gw fs π doc e hj] at hok; simp at hok
  | ok rs =>
    rcases hsc : synthesisCall gw rs with ⟨res, sevs⟩
    cases res with
    | error e =>
      rw [analyze_synth_error gw fs π doc rs e sevs hj hsc] at hok
      simp at hok
    | ok fd =>
      rcases hper : persistReport fs (final_header ++ fd) with ⟨fs2, perr, pevs⟩
      cases perr with
      | some e =>
        rw [analyze_persist_error gw fs π doc rs fd sevs fs2 e pevs hj hsc hper] at hok
        simp at hok
      | none =>
        have heq := analyze_all_ok gw fs π doc rs fd sevs fs2 pevs hj hsc hper
        rw [heq] at hok
        simp only [Except.ok.injEq] at hok
        subst hok
        rcases persistReport_none_inv fs (final_header ++ fd) fs2 pevs hper with
          ⟨hpevs, hfiles, hdirs, hmkE, hwE⟩
        rw [heq]
        refine ⟨rfl, ⟨fd, ?_, rfl⟩, ?_, hdirs, ?_⟩
        · show (synthesisCall gw rs).1 = Except.ok fd
          rw [hsc]
        · show fs2.files.lookup txt_output_path = some (final_header ++ fd)
          rw [hfiles]
          exact setFile_lookup_self _ _ _
        · show persistReport fs2 (final_header ++ fd) =
            (fs2, none, [Event.mkdir "results", Event.fwrite txt_output_path (final_header ++ fd)])
          obtain ⟨d2, f2, m2, w2⟩ := fs2
          have hf2 : f2 = setFile fs.files txt_output_path (final_header ++ fd) := hfiles
          have hm2 : m2 = none := hmkE
          have hw2 : w2 = none := hwE
          have hd2 : "results" ∈ d2 := hdirs
          subst hf2
          subst hm2
          subst hw2
          exact persistReport_reuse fs.files d2 (final_header ++ fd) hd2

/-- Witness for C8 at a concrete fully successful run. -/
theorem run_persists_fixed_artifact_witness :
    (analyze_medical_report gw_all_ok fs_empty roles "doc").1 =
      Except.ok ([("Cardiologist", "ok"), ("Psychologist", "ok"), ("Pulmonologist", "ok")],
        final_header ++ "ok", txt_output_path) ∧
    (([("Cardiologist", "ok"), ("Psychologist", "ok"), ("Pulmonologist", "ok")],
        final_header ++ "ok", txt_output_path).2.2 = "results/final_diagnosis.txt" ∧
     (∃ fd, (synthesisCall gw_all_ok
          [("Cardiologist", "ok"), ("Psychologist", "ok"), ("Pulmonologist", "ok")]).1 =
          Except.ok fd ∧ final_header ++ "ok" = final_header ++ fd) ∧
     ((analyze_medical_report gw_all_ok fs_empty roles "doc").2.2.files.lookup
        txt_output_path = some (final_header ++ "ok")) ∧
     "results" ∈ (analyze_medical_report gw_all_ok fs_empty roles "doc").2.2.dirs ∧
     persistReport ((analyze_medical_report gw_all_ok fs_empty roles "doc").2.2)
        (final_header ++ "ok") =
       ((analyze_medical_report gw_all_ok fs_empty roles "doc").2.2, none,
        [Event.mkdir "results", Event.fwrite txt_output_path (final_header ++ "ok")])) := by
  have hok : (analyze_medical_report gw_all_ok fs_empty roles "doc").1 =
      Except.ok ([("Cardiologist", "ok"), ("Psychologist", "ok"), ("Pulmonologist", "ok")],
        final_header ++ "ok", txt_output_path) := by decide
  exact ⟨hok, run_persists_fixed_artifact gw_all_ok fs_empty roles "doc" _ hok⟩

/-- Claim C9: on a fully successful run whose completion order is a
permutation of the role set, the trace is exactly one worker gateway call
per fan-out task, then the single synthesis gateway call, then the
directory creation and the file write — so exactly four gateway calls in
total and no other side effects. -/
theorem exactly_four_gateway_calls (gw : Gateway) (fs : FsState) (π : List String)
    (doc : String) (out : List (String × String) × String × String)
    (hπ : π.Perm roles)
    (hok : (analyze_medical_report gw fs π doc).1 = Except.ok out) :
    ∃ sp, (analyze_medical_report gw fs π doc).2.1 =
        workerEvents doc π ++
          [Event.gen sp, Event.mkdir "results", Event.fwrite txt_output_path out.2.1] ∧
      (workerEvents doc π).length = π.length ∧ π.length = 3 ∧
      ((analyze_medical_report gw fs π doc).2.1.countP isGenEvent) = 4 := by
  cases hj : joinAll gw doc π [] with
  | error e => rw [analyze_join_error gw fs π doc e hj] at hok; simp at hok
  | ok rs =>
    rcases hsc : synthesisCall gw rs with ⟨res, sevs⟩
    cases res with
    | error e =>
      rw [analyze_synth_error gw fs π doc rs e sevs hj hsc] at hok
      simp at hok
    | ok fd =>
      rcases hper : persistReport fs (final_header ++ fd) with ⟨fs2, perr, pevs⟩
      cases perr with
      | some e =>
        rw [analyze_persist_error gw fs π doc rs fd sevs fs2 e pevs hj hsc hper] at hok
        simp at hok
      | none =>
        have heq := analyze_all_ok gw fs π doc rs fd sevs fs2 pevs hj hsc hper
        rw [heq] at hok
        simp only [Except.ok.injEq] at hok
        subst hok
        rcases synthesisCall_ok_inv gw rs fd sevs hsc with ⟨c, p, u, _, _, _, _, hsevs⟩
        rcases persistReport_none_inv fs (final_header ++ fd) fs2 pevs hper with
          ⟨hpevs, _, _, _, _⟩
        have hall : ∀ r ∈ π, ∃ f, agents.lookup r = some f := by
          intro r hr
          rcases joinAll_ok_forall gw doc π [] rs hj r hr with ⟨s, hs⟩
          exact lookup_some_of_workerResult_ok gw doc r s hs
        have hlen := workerEvents_length_eq doc π hall
        have hlen3 : π.length = 3 := hπ.length_eq
        have htrace : (analyze_medical_report gw fs π doc).2.1 =
            workerEvents doc π ++
              [Event.gen (multidisciplinary_team_agent_prompt c p u), Event.mkdir "results",
               Event.fwrite txt_output_path (final_header ++ fd)] := by
          rw [heq]
          show workerEvents doc π ++ sevs ++ pevs = _
          rw [hsevs, hpevs, List.append_assoc]
          rfl
        refine ⟨multidisciplinary_team_agent_prompt c p u, htrace, hlen, hlen3, ?_⟩
        rw [htrace, List.countP_append]
        have h1 : (workerEvents doc π).countP isGenEvent = (workerEvents doc π).length :=
          List.countP_eq_length.mpr (fun e he => isGen_of_mem_workerEvents doc π e he)
        rw [h1, hlen, hlen3]
        rfl

/-- Witness for C9 at a concrete fully successful run. -/
theorem exactly_four_gateway_calls_witness :
    roles.Perm roles ∧
    (analyze_medical_report gw_all_ok fs_empty roles "doc").1 =
      Except.ok ([("Cardiologist", "ok"), ("Psychologist", "ok"), ("Pulmonologist", "ok")],
        final_header ++ "ok", txt_output_path) ∧
    ∃ sp, (analyze_medical_report gw_all_ok fs_empty roles "doc").2.1 =
        workerEvents "doc" roles ++
          [Event.gen sp, Event.mkdir "results",
           Event.fwrite txt_output_path
             (([("Cardiologist", "ok"), ("Psychologist", "ok"), ("Pulmonologist", "ok")],
               final_header ++ "ok", txt_output_path).2.1)] ∧
      (workerEvents "doc" roles).length = roles.length ∧ roles.length = 3 ∧
      ((analyze_medical_report gw_all_ok fs_empty roles "doc").2.1.countP isGenEvent) = 4 := by
  have hok : (analyze_medical_report gw_all_ok fs_empty roles "doc").1 =
      Except.ok ([("Cardiologist", "ok"), ("Psychologist", "ok"), ("Pulmonologist", "ok")],
        final_header ++ "ok", txt_output_path) := by decide
  exact ⟨List.Perm.refl roles, hok,
    exactly_four_gateway_calls gw_all_ok fs_empty roles "doc" _ (List.Perm.refl roles) hok⟩

/-- Witness for C4 at two gateways that disagree on every prompt. -/
theorem prompts_depend_only_on_document_witness :
    (analyze_medical_report gw_all_ok fs_empty roles "doc").2.1.take roles.length =
      workerEvents "doc" roles ∧
    (analyze_medical_report gw_fail fs_write_fail roles "doc").2.1.take roles.length =
      workerEvents "doc" roles ∧
    (∀ r f, r ∈ roles → agents.lookup r = some f →
      Event.gen (f "doc") ∈
        (analyze_medical_report gw_all_ok fs_empty roles "doc").2.1.take roles.length) :=
  prompts_depend_only_on_document gw_all_ok gw_fail fs_empty fs_write_fail roles "doc"
